import Mathlib

/-!
Verification of the security-scan orchestration engine of `gobot-tools`
(package `security-sentinel`), shallowly embedded from
`src/packages/security-sentinel/src/index.ts`, `lib/scanner.ts` and
`lib/tools.ts`.  Effectful steps (HTTP, SSH, subprocess, file I/O) are
modelled by passing their outcomes (`Except` values) explicitly; the pure
aggregation, diffing, rollup and policy logic is translated directly.
-/

namespace SecuritySentinel

/-- Severity levels of `ScanResult.severity` (scanner.ts, line 30). -/
inductive Severity
  | critical
  | high
  | medium
  | low
  | info
deriving DecidableEq, Repr

/-- The `ScanResult` record (scanner.ts, lines 25-34). -/
structure ScanResult where
  id : String
  category : String
  name : String
  pass : Bool
  severity : Severity
  details : String
  evidence : Option String
  compliance : List String
deriving DecidableEq, Repr

/-- The result constructor `ok` — defined identically in scanner.ts
(lines 130-140) and tools.ts (lines 29-39).  A passing result's severity
is forced to `info` regardless of the `severity` argument. -/
def ok (id category name : String) (pass : Bool) (severity : Severity)
    (details : String) (compliance : List String) (evidence : Option String) :
    ScanResult :=
  { id := id, category := category, name := name, pass := pass,
    severity := if pass then Severity.info else severity,
    details := details, evidence := evidence, compliance := compliance }

/-- The `ScanDiff` record (index.ts, lines 71-75). -/
structure ScanDiff where
  new_failures : List ScanResult
  resolved : List ScanResult
  persistent_failures : List ScanResult
deriving DecidableEq, Repr

/-- `new Map(l.map(r => [r.id, r])).get(i)`: insertion into a JS `Map`
overwrites earlier entries with the same key, so lookup returns the last
element of `l` whose `id` is `i` (index.ts, lines 86-87). -/
def mapGet (l : List ScanResult) (i : String) : Option ScanResult :=
  l.reverse.find? (fun r => r.id == i)

/-- `diffReports` (index.ts, lines 77-109).  The two loops push each
element into at most one list, preserving order, which is expressed here
as filters with the loop bodies' conditions. -/
def diffReports (current : List ScanResult) (previous : Option (List ScanResult)) :
    ScanDiff :=
  match previous with
  | none =>
    { new_failures := current.filter (fun r => !r.pass),
      resolved := [],
      persistent_failures := [] }
  | some prev =>
    { new_failures := current.filter (fun r => !r.pass &&
        (match mapGet prev r.id with
         | none => true
         | some p => p.pass)),
      resolved := prev.filter (fun r => !r.pass &&
        (match mapGet current r.id with
         | none => true
         | some c => c.pass)),
      persistent_failures := current.filter (fun r => !r.pass &&
        (match mapGet prev r.id with
         | none => false
         | some p => !p.pass)) }

/-- `getLastReport` (index.ts, lines 55-65) wraps the directory listing,
file read and `JSON.parse` in a `try`/`catch` that returns `null`: any
unreadable or corrupt stored report degrades to "no previous report". -/
def getLastReport (readOutcome : Except String (List ScanResult)) :
    Option (List ScanResult) :=
  match readOutcome with
  | Except.error _ => none
  | Except.ok rs => some rs

/-- The check id `i` fails somewhere in `l`. -/
def failsIn (l : List ScanResult) (i : String) : Prop :=
  ∃ r ∈ l, r.id = i ∧ r.pass = false

/-- The check id `i` is absent from `l` or passes everywhere in `l`. -/
def passesOrAbsentIn (l : List ScanResult) (i : String) : Prop :=
  ∀ r ∈ l, r.id = i → r.pass = true

lemma mapGet_mem {l : List ScanResult} {i : String} {p : ScanResult}
    (h : mapGet l i = some p) : p ∈ l ∧ p.id = i := by
  unfold mapGet at h
  refine ⟨List.mem_reverse.mp (List.mem_of_find?_eq_some h), ?_⟩
  simpa using List.find?_some h

lemma mapGet_eq_none {l : List ScanResult} {i : String} :
    mapGet l i = none ↔ ∀ p ∈ l, p.id ≠ i := by
  unfold mapGet
  rw [List.find?_eq_none]
  simp

lemma nodup_id_unique {l : List ScanResult}
    (hl : (l.map ScanResult.id).Nodup) {p q : ScanResult}
    (hp : p ∈ l) (hq : q ∈ l) (hid : p.id = q.id) : p = q := by
  have := List.inj_on_of_nodup_map hl
  exact this hp hq hid

lemma mapGet_of_mem {l : List ScanResult}
    (hl : (l.map ScanResult.id).Nodup) {p : ScanResult}
    (hp : p ∈ l) : mapGet l p.id = some p := by
  cases h : mapGet l p.id with
  | none =>
    exact absurd rfl (mapGet_eq_none.mp h p hp)
  | some q =>
    obtain ⟨hq, hqid⟩ := mapGet_mem h
    rw [nodup_id_unique hl hq hp hqid]

lemma passCond_iff {P : List ScanResult} (hP : (P.map ScanResult.id).Nodup)
    (i : String) :
    ((match mapGet P i with
      | none => true
      | some p => p.pass) = true) ↔ passesOrAbsentIn P i := by
  cases h : mapGet P i with
  | none =>
    simp only [true_iff]
    intro r hr hri
    exact absurd hri (mapGet_eq_none.mp h r hr)
  | some p =>
    obtain ⟨hp, hpid⟩ := mapGet_mem h
    simp only []
    constructor
    · intro hpass r hr hri
      have : r.id = p.id := hri.trans hpid.symm
      rw [nodup_id_unique hP hr hp this]
      exact hpass
    · intro hall
      exact hall p hp hpid

lemma failCond_iff {P : List ScanResult} (hP : (P.map ScanResult.id).Nodup)
    (i : String) :
    ((match mapGet P i with
      | none => false
      | some p => !p.pass) = true) ↔ failsIn P i := by
  cases h : mapGet P i with
  | none =>
    simp only [Bool.false_eq_true, false_iff]
    rintro ⟨r, hr, hri, -⟩
    exact absurd hri (mapGet_eq_none.mp h r hr)
  | some p =>
    obtain ⟨hp, hpid⟩ := mapGet_mem h
    simp only [Bool.not_eq_true']
    constructor
    · intro hfail
      exact ⟨p, hp, hpid, hfail⟩
    · rintro ⟨r, hr, hri, hfail⟩
      have : r.id = p.id := hri.trans hpid.symm
      rw [← nodup_id_unique hP hr hp this]
      exact hfail

/-- Example results used to witness the diff-engine claim (spec §8's diff
example): id `A` passes in the prior report and fails in the current one,
id `B` fails in the prior report and passes in the current one. -/
def wPrev : List ScanResult :=
  [ok "A" "CAT" "check A" true Severity.high "fine" [] none,
   ok "B" "CAT" "check B" false Severity.high "broken" [] none]

def wCurr : List ScanResult :=
  [ok "A" "CAT" "check A" false Severity.high "broken" [] none,
   ok "B" "CAT" "check B" true Severity.high "fine" [] none]

/-- Claim C1: per distinct check id, `diffReports` classifies a failure of
the current report as `new_failure` when the id is absent from or passing
in the prior report and as `persistent_failure` when it also fails there;
a prior failure that passes in or is absent from the current report is
`resolved`; an id passing in both appears in no diff list.  When no prior
report exists — including an unreadable or corrupt stored report, which
`getLastReport` degrades to `none` — every failing current result is a
`new_failure` and the other two lists are empty. -/
theorem C1_diff_classification (C P : List ScanResult)
    (hC : (C.map ScanResult.id).Nodup) (hP : (P.map ScanResult.id).Nodup) :
    (∀ r, r ∈ (diffReports C (some P)).new_failures ↔
        r ∈ C ∧ r.pass = false ∧ passesOrAbsentIn P r.id)
    ∧ (∀ r, r ∈ (diffReports C (some P)).persistent_failures ↔
        r ∈ C ∧ r.pass = false ∧ failsIn P r.id)
    ∧ (∀ r, r ∈ (diffReports C (some P)).resolved ↔
        r ∈ P ∧ r.pass = false ∧ passesOrAbsentIn C r.id)
    ∧ (∀ r, r.pass = true →
        r ∉ (diffReports C (some P)).new_failures ∧
        r ∉ (diffReports C (some P)).persistent_failures ∧
        r ∉ (diffReports C (some P)).resolved)
    ∧ (∀ e, getLastReport (Except.error e) = none)
    ∧ (∀ r, r ∈ (diffReports C none).new_failures ↔ r ∈ C ∧ r.pass = false)
    ∧ (diffReports C none).resolved = []
    ∧ (diffReports C none).persistent_failures = [] := by
  refine ⟨?_, ?_, ?_, ?_, fun e => rfl, ?_, rfl, rfl⟩
  · intro r
    simp only [diffReports, List.mem_filter, Bool.and_eq_true, Bool.not_eq_true']
    rw [passCond_iff hP r.id]
  · intro r
    simp only [diffReports, List.mem_filter, Bool.and_eq_true, Bool.not_eq_true']
    rw [failCond_iff hP r.id]
  · intro r
    simp only [diffReports, List.mem_filter, Bool.and_eq_true, Bool.not_eq_true']
    rw [passCond_iff hC r.id]
  · intro r hr
    simp only [diffReports, List.mem_filter, Bool.and_eq_true, Bool.not_eq_true', hr]
    tauto
  · intro r
    simp only [diffReports, List.mem_filter, Bool.not_eq_true']

theorem C1_diff_classification_witness :
    ((wCurr.map ScanResult.id).Nodup ∧ (wPrev.map ScanResult.id).Nodup)
    ∧ (∀ r, r ∈ (diffReports wCurr (some wPrev)).new_failures ↔
        r ∈ wCurr ∧ r.pass = false ∧ passesOrAbsentIn wPrev r.id) :=
  ⟨⟨by decide, by decide⟩,
   (C1_diff_classification wCurr wPrev (by decide) (by decide)).1⟩

/-- Per-framework compliance status values (scanner.ts, lines 46-50). -/
inductive CStatus
  | pass
  | warn
  | fail
deriving DecidableEq, Repr

/-- One framework's entry of the compliance summary. -/
structure FrameworkStatus where
  affected : List String
  status : CStatus
deriving DecidableEq, Repr

/-- The `ComplianceSummary` record (scanner.ts, lines 46-50). -/
structure ComplianceSummary where
  SOC2 : FrameworkStatus
  PCI_DSS : FrameworkStatus
  HIPAA : FrameworkStatus
deriving DecidableEq, Repr

/-- Body of the inner `for (const ctrl of r.compliance)` loop of
`buildComplianceSummary` (scanner.ts, lines 1134-1150), restricted to one
framework prefix: a matching tag appends `"<id>: <tag>"` to `affected`;
a critical/high severity sets the status to `fail`, any other severity
sets it to `warn` unless it is already `fail`. -/
def stepCtrl (pre : String) (r : ScanResult) (fw : FrameworkStatus)
    (ctrl : String) : FrameworkStatus :=
  if ctrl.startsWith pre then
    { affected := fw.affected ++ [r.id ++ ": " ++ ctrl],
      status :=
        if r.severity = Severity.critical ∨ r.severity = Severity.high then
          CStatus.fail
        else if fw.status ≠ CStatus.fail then CStatus.warn
        else fw.status }
  else fw

/-- Body of the outer `for (const r of results)` loop (scanner.ts,
lines 1132-1151): passing results are skipped (`if (r.pass) continue`). -/
def stepResult (pre : String) (fw : FrameworkStatus) (r : ScanResult) :
    FrameworkStatus :=
  if r.pass then fw else r.compliance.foldl (stepCtrl pre r) fw

/-- `[...new Set(l)]` (scanner.ts, lines 1153-1155): a JS `Set` keeps the
first occurrence of each element, in insertion order. -/
def setDedup (l : List String) : List String :=
  l.foldl (fun acc x => if x ∈ acc then acc else acc ++ [x]) []

/-- One framework's rollup: status starts at `pass`, the results are
folded in order, and `affected` is deduplicated at the end. -/
def buildFramework (pre : String) (results : List ScanResult) :
    FrameworkStatus :=
  let fw := results.foldl (stepResult pre)
    { affected := [], status := CStatus.pass }
  { affected := setDedup fw.affected, status := fw.status }

/-- `buildComplianceSummary` (scanner.ts, lines 1125-1158) and its
verbatim copy `buildComplianceSummaryFromResults` (index.ts,
lines 636-669).  The single loop updates the three frameworks
independently, so it is expressed as three independent folds. -/
def buildComplianceSummary (results : List ScanResult) : ComplianceSummary :=
  { SOC2 := buildFramework "SOC2:" results,
    PCI_DSS := buildFramework "PCI:" results,
    HIPAA := buildFramework "HIPAA:" results }

/-- A failing result bearing at least one tag with the framework's
prefix: exactly the results that touch the framework's rollup state. -/
def contributes (pre : String) (r : ScanResult) : Prop :=
  r.pass = false ∧ ∃ ctrl ∈ r.compliance, ctrl.startsWith pre = true

/-- Severities that force a framework's status to `fail`. -/
def hotSeverity (r : ScanResult) : Prop :=
  r.severity = Severity.critical ∨ r.severity = Severity.high

instance (pre : String) (r : ScanResult) : Decidable (contributes pre r) := by
  unfold contributes
  infer_instance

instance (r : ScanResult) : Decidable (hotSeverity r) := by
  unfold hotSeverity
  infer_instance

/-- The `"<id>: <tag>"` pairs contributed to a framework by a result
list, in contribution order and before deduplication. -/
def pairsOf (pre : String) (rs : List ScanResult) : List String :=
  rs.flatMap (fun r =>
    if r.pass then []
    else (r.compliance.filter (fun c => c.startsWith pre)).map
      (fun c => r.id ++ ": " ++ c))

lemma stepCtrl_affected (pre : String) (r : ScanResult) (fw : FrameworkStatus)
    (ctrl : String) :
    (stepCtrl pre r fw ctrl).affected =
      fw.affected ++ (if ctrl.startsWith pre then [r.id ++ ": " ++ ctrl] else []) := by
  unfold stepCtrl
  split <;> simp_all

lemma foldl_ctrl_affected (pre : String) (r : ScanResult)
    (ctrls : List String) (fw : FrameworkStatus) :
    (ctrls.foldl (stepCtrl pre r) fw).affected =
      fw.affected ++ (ctrls.filter (fun c => c.startsWith pre)).map
        (fun c => r.id ++ ": " ++ c) := by
  induction ctrls generalizing fw with
  | nil => simp
  | cons c cs ih =>
    rw [List.foldl_cons, ih, stepCtrl_affected]
    by_cases hs : c.startsWith pre <;> simp [hs]

lemma foldl_result_affected (pre : String) (rs : List ScanResult)
    (fw : FrameworkStatus) :
    (rs.foldl (stepResult pre) fw).affected = fw.affected ++ pairsOf pre rs := by
  induction rs generalizing fw with
  | nil => simp [pairsOf]
  | cons r rs ih =>
    rw [List.foldl_cons, ih]
    unfold stepResult pairsOf
    cases hp : r.pass with
    | true => simp [hp]
    | false => simp [hp, foldl_ctrl_affected, pairsOf]

lemma mem_pairsOf (pre : String) (rs : List ScanResult) (x : String) :
    x ∈ pairsOf pre rs ↔
      ∃ r ∈ rs, r.pass = false ∧
        ∃ ctrl ∈ r.compliance, ctrl.startsWith pre = true ∧
          x = r.id ++ ": " ++ ctrl := by
  unfold pairsOf
  simp only [List.mem_flatMap]
  constructor
  · rintro ⟨r, hr, hx⟩
    cases hp : r.pass with
    | true => simp [hp] at hx
    | false =>
      simp only [hp, if_neg Bool.false_ne_true, List.mem_map,
        List.mem_filter] at hx
      obtain ⟨c, ⟨hc, hcs⟩, hxc⟩ := hx
      exact ⟨r, hr, hp, c, hc, hcs, hxc.symm⟩
  · rintro ⟨r, hr, hp, c, hc, hcs, hxc⟩
    refine ⟨r, hr, ?_⟩
    simp only [hp, if_neg Bool.false_ne_true, List.mem_map, List.mem_filter]
    exact ⟨c, ⟨hc, hcs⟩, hxc.symm⟩

lemma setDedup_aux_mem (l acc : List String) (x : String) :
    x ∈ l.foldl (fun acc x => if x ∈ acc then acc else acc ++ [x]) acc ↔
      x ∈ acc ∨ x ∈ l := by
  induction l generalizing acc with
  | nil => simp
  | cons a l ih =>
    rw [List.foldl_cons, ih]
    by_cases ha : a ∈ acc
    · simp only [if_pos ha, List.mem_cons]
      constructor
      · tauto
      · rintro (h | rfl | h) <;> tauto
    · simp only [if_neg ha, List.mem_append, List.mem_singleton, List.mem_cons]
      tauto

lemma setDedup_mem (l : List String) (x : String) :
    x ∈ setDedup l ↔ x ∈ l := by
  unfold setDedup
  rw [setDedup_aux_mem]
  simp

lemma setDedup_aux_nodup (l : List String) (acc : List String)
    (hacc : acc.Nodup) :
    (l.foldl (fun acc x => if x ∈ acc then acc else acc ++ [x]) acc).Nodup := by
  induction l generalizing acc with
  | nil => exact hacc
  | cons a l ih =>
    rw [List.foldl_cons]
    by_cases ha : a ∈ acc
    · rw [if_pos ha]
      exact ih acc hacc
    · rw [if_neg ha]
      refine ih _ ?_
      simp [List.nodup_append, hacc, ha]

lemma setDedup_nodup (l : List String) : (setDedup l).Nodup :=
  setDedup_aux_nodup l [] List.nodup_nil

lemma foldl_ctrl_fail_iff (pre : String) (r : ScanResult)
    (ctrls : List String) (fw : FrameworkStatus) :
    (ctrls.foldl (stepCtrl pre r) fw).status = CStatus.fail ↔
      fw.status = CStatus.fail ∨
        (hotSeverity r ∧ ∃ c ∈ ctrls, c.startsWith pre = true) := by
  induction ctrls generalizing fw with
  | nil => simp
  | cons c cs ih =>
    rw [List.foldl_cons, ih]
    unfold stepCtrl hotSeverity
    by_cases hs : c.startsWith pre = true
    · by_cases hhot : r.severity = Severity.critical ∨ r.severity = Severity.high
      · simp only [hs, if_true, hhot, List.mem_cons]
        simp [hotSeverity, hhot]
        exact Or.inr (Or.inl hs)
      · by_cases hf : fw.status = CStatus.fail
        · simp [hs, hhot, hf]
        · simp [hs, hhot, hf]
    · simp only [hs, List.mem_cons]
      simp [hotSeverity, hs]

lemma foldl_ctrl_pass_iff (pre : String) (r : ScanResult)
    (ctrls : List String) (fw : FrameworkStatus) :
    (ctrls.foldl (stepCtrl pre r) fw).status = CStatus.pass ↔
      fw.status = CStatus.pass ∧ ¬ ∃ c ∈ ctrls, c.startsWith pre = true := by
  induction ctrls generalizing fw with
  | nil => simp
  | cons c cs ih =>
    rw [List.foldl_cons, ih]
    unfold stepCtrl
    by_cases hs : c.startsWith pre = true
    · by_cases hhot : r.severity = Severity.critical ∨ r.severity = Severity.high
      · simp [hs, hhot]
      · by_cases hf : fw.status = CStatus.fail
        · simp [hs, hhot, hf]
        · simp [hs, hhot, hf]
    · simp only [hs, List.mem_cons]
      simp [hs]

lemma stepResult_of_pass {pre : String} {fw : FrameworkStatus}
    {r : ScanResult} (hp : r.pass = true) : stepResult pre fw r = fw := by
  unfold stepResult
  simp [hp]

lemma stepResult_of_fail {pre : String} {fw : FrameworkStatus}
    {r : ScanResult} (hp : r.pass = false) :
    stepResult pre fw r = r.compliance.foldl (stepCtrl pre r) fw := by
  unfold stepResult
  simp [hp]

lemma foldl_result_fail_iff (pre : String) (rs : List ScanResult)
    (fw : FrameworkStatus) :
    (rs.foldl (stepResult pre) fw).status = CStatus.fail ↔
      fw.status = CStatus.fail ∨
        ∃ r ∈ rs, contributes pre r ∧ hotSeverity r := by
  induction rs generalizing fw with
  | nil => simp
  | cons r rs ih =>
    rw [List.foldl_cons, ih]
    cases hp : r.pass with
    | true =>
      rw [stepResult_of_pass hp]
      simp only [List.mem_cons]
      simp [contributes, hp]
    | false =>
      rw [stepResult_of_fail hp, foldl_ctrl_fail_iff]
      constructor
      · rintro ((hfw | ⟨hhot, c, hc, hcs⟩) | ⟨q, hq, hcon, hhot⟩)
        · exact Or.inl hfw
        · exact Or.inr ⟨r, List.mem_cons_self r rs, ⟨hp, c, hc, hcs⟩, hhot⟩
        · exact Or.inr ⟨q, List.mem_cons_of_mem r hq, hcon, hhot⟩
      · rintro (hfw | ⟨q, hq, hcon, hhot⟩)
        · exact Or.inl (Or.inl hfw)
        · rcases List.mem_cons.mp hq with rfl | hq2
          · obtain ⟨-, c, hc, hcs⟩ := hcon
            exact Or.inl (Or.inr ⟨hhot, c, hc, hcs⟩)
          · exact Or.inr ⟨q, hq2, hcon, hhot⟩

lemma foldl_result_pass_iff (pre : String) (rs : List ScanResult)
    (fw : FrameworkStatus) :
    (rs.foldl (stepResult pre) fw).status = CStatus.pass ↔
      fw.status = CStatus.pass ∧ ¬ ∃ r ∈ rs, contributes pre r := by
  induction rs generalizing fw with
  | nil => simp
  | cons r rs ih =>
    rw [List.foldl_cons, ih]
    cases hp : r.pass with
    | true =>
      rw [stepResult_of_pass hp]
      simp only [List.mem_cons]
      simp [contributes, hp]
    | false =>
      rw [stepResult_of_fail hp, foldl_ctrl_pass_iff]
      constructor
      · rintro ⟨⟨hfw, hnc⟩, hnrs⟩
        refine ⟨hfw, ?_⟩
        rintro ⟨q, hq, hcon⟩
        rcases List.mem_cons.mp hq with rfl | hq2
        · exact hnc hcon.2
        · exact hnrs ⟨q, hq2, hcon⟩
      · rintro ⟨hfw, hn⟩
        refine ⟨⟨hfw, ?_⟩, ?_⟩
        · rintro ⟨c, hc, hcs⟩
          exact hn ⟨r, List.mem_cons_self r rs, hp, c, hc, hcs⟩
        · rintro ⟨q, hq, hcon⟩
          exact hn ⟨q, List.mem_cons_of_mem r hq, hcon⟩

lemma buildFramework_fail_iff (pre : String) (rs : List ScanResult) :
    (buildFramework pre rs).status = CStatus.fail ↔
      ∃ r ∈ rs, contributes pre r ∧ hotSeverity r := by
  simp only [buildFramework]
  rw [foldl_result_fail_iff]
  simp

lemma buildFramework_pass_iff (pre : String) (rs : List ScanResult) :
    (buildFramework pre rs).status = CStatus.pass ↔
      ¬ ∃ r ∈ rs, contributes pre r := by
  simp only [buildFramework]
  rw [foldl_result_pass_iff]
  simp

lemma buildFramework_warn_iff (pre : String) (rs : List ScanResult) :
    (buildFramework pre rs).status = CStatus.warn ↔
      (∃ r ∈ rs, contributes pre r) ∧
        ¬ ∃ r ∈ rs, contributes pre r ∧ hotSeverity r := by
  cases h : (buildFramework pre rs).status with
  | pass =>
    have hnp := (buildFramework_pass_iff pre rs).mp h
    constructor
    · intro hcontra
      exact absurd hcontra (by decide)
    · rintro ⟨hc, -⟩
      exact ((hnp hc).elim)
  | warn =>
    constructor
    · intro _
      constructor
      · by_contra hnc
        have hph := (buildFramework_pass_iff pre rs).mpr hnc
        rw [h] at hph
        exact absurd hph (by decide)
      · intro hhot
        have hfh := (buildFramework_fail_iff pre rs).mpr hhot
        rw [h] at hfh
        exact absurd hfh (by decide)
    · intro _
      rfl
  | fail =>
    have hfail := (buildFramework_fail_iff pre rs).mp h
    constructor
    · intro hcontra
      exact absurd hcontra (by decide)
    · rintro ⟨-, hnhot⟩
      exact ((hnhot hfail).elim)

lemma buildFramework_affected_mem (pre : String) (rs : List ScanResult)
    (x : String) :
    x ∈ (buildFramework pre rs).affected ↔
      ∃ r ∈ rs, r.pass = false ∧
        ∃ ctrl ∈ r.compliance, ctrl.startsWith pre = true ∧
          x = r.id ++ ": " ++ ctrl := by
  simp only [buildFramework, foldl_result_affected, List.nil_append,
    setDedup_mem]
  exact mem_pairsOf pre rs x

lemma buildFramework_affected_nodup (pre : String) (rs : List ScanResult) :
    (buildFramework pre rs).affected.Nodup := by
  simp only [buildFramework]
  exact setDedup_nodup _

lemma foldl_skip_passing (pre : String) (rs : List ScanResult)
    (fw : FrameworkStatus) :
    (rs.filter (fun r => !r.pass)).foldl (stepResult pre) fw =
      rs.foldl (stepResult pre) fw := by
  induction rs generalizing fw with
  | nil => rfl
  | cons r rs ih =>
    cases hp : r.pass with
    | true =>
      rw [List.filter_cons_of_neg (by simp [hp]), List.foldl_cons,
        stepResult_of_pass hp]
      exact ih fw
    | false =>
      rw [List.filter_cons_of_pos (by simp [hp]), List.foldl_cons,
        List.foldl_cons]
      exact ih _

lemma buildFramework_skip_passing (pre : String) (rs : List ScanResult) :
    buildFramework pre (rs.filter (fun r => !r.pass)) =
      buildFramework pre rs := by
  simp only [buildFramework]
  rw [foldl_skip_passing]

/-- The specification of one framework's rollup, as stated by the spec:
`fail` exactly when some contributing failure has critical or high
severity; `warn` exactly when contributors exist but none is
critical/high; `pass` exactly when nothing contributes; `affected` holds
exactly the contributed `"<id>: <tag>"` pairs, without duplicates. -/
def rollupSpec (pre : String) (results : List ScanResult)
    (fw : FrameworkStatus) : Prop :=
  (fw.status = CStatus.fail ↔
    ∃ r ∈ results, contributes pre r ∧ hotSeverity r)
  ∧ (fw.status = CStatus.warn ↔
    (∃ r ∈ results, contributes pre r) ∧
      ¬ ∃ r ∈ results, contributes pre r ∧ hotSeverity r)
  ∧ (fw.status = CStatus.pass ↔ ¬ ∃ r ∈ results, contributes pre r)
  ∧ (∀ x, x ∈ fw.affected ↔
    ∃ r ∈ results, r.pass = false ∧
      ∃ ctrl ∈ r.compliance, ctrl.startsWith pre = true ∧
        x = r.id ++ ": " ++ ctrl)
  ∧ fw.affected.Nodup

/-- Claim C2: for each of SOC2, PCI-DSS and HIPAA the rollup over a
report's results starts at `pass`; a contributing failure of critical or
high severity forces `fail` and `fail` is sticky for the remainder of the
fold; any other contributing failure yields `warn` only when the status
is not already `fail`; `affected` records each contributed
`(check-id, tag)` pair with duplicates removed; passing results
contribute nothing. -/
theorem C2_compliance_rollup (results : List ScanResult) :
    rollupSpec "SOC2:" results (buildComplianceSummary results).SOC2
    ∧ rollupSpec "PCI:" results (buildComplianceSummary results).PCI_DSS
    ∧ rollupSpec "HIPAA:" results (buildComplianceSummary results).HIPAA
    ∧ (∀ pre fw rs, fw.status = CStatus.fail →
        (List.foldl (stepResult pre) fw rs).status = CStatus.fail)
    ∧ (∀ pre, buildFramework pre (results.filter (fun r => !r.pass)) =
        buildFramework pre results) := by
  have hspec : ∀ pre, rollupSpec pre results (buildFramework pre results) :=
    fun pre =>
      ⟨buildFramework_fail_iff pre results,
       buildFramework_warn_iff pre results,
       buildFramework_pass_iff pre results,
       buildFramework_affected_mem pre results,
       buildFramework_affected_nodup pre results⟩
  refine ⟨hspec _, hspec _, hspec _, ?_, fun pre => buildFramework_skip_passing pre results⟩
  intro pre fw rs hf
  rw [foldl_result_fail_iff]
  exact Or.inl hf

/-- Claim C10 (implicit): in every compliance summary built by the
engine, each framework's status is `pass` exactly when its `affected`
list is empty — a failing result bearing a matching tag both adds an
`affected` entry and moves the status off `pass`, and a non-`pass`
status always comes with a nonempty `affected` list. -/
theorem C10_pass_iff_unaffected (results : List ScanResult) :
    ((buildComplianceSummary results).SOC2.status = CStatus.pass ↔
      (buildComplianceSummary results).SOC2.affected = [])
    ∧ ((buildComplianceSummary results).PCI_DSS.status = CStatus.pass ↔
      (buildComplianceSummary results).PCI_DSS.affected = [])
    ∧ ((buildComplianceSummary results).HIPAA.status = CStatus.pass ↔
      (buildComplianceSummary results).HIPAA.affected = []) := by
  have key : ∀ pre, ((buildFramework pre results).status = CStatus.pass ↔
      (buildFramework pre results).affected = []) := by
    intro pre
    rw [buildFramework_pass_iff, List.eq_nil_iff_forall_not_mem]
    constructor
    · intro hnc x hx
      rw [buildFramework_affected_mem] at hx
      obtain ⟨r, hr, hp, c, hc, hcs, -⟩ := hx
      exact hnc ⟨r, hr, hp, c, hc, hcs⟩
    · rintro hemp ⟨r, hr, hp, c, hc, hcs⟩
      exact hemp (r.id ++ ": " ++ c)
        ((buildFramework_affected_mem pre results _).mpr
          ⟨r, hr, hp, c, hc, hcs, rfl⟩)
  exact ⟨key _, key _, key _⟩

/-- Claim C5: every `ScanResult` built by the result constructor `ok`
(scanner.ts, lines 130-140; tools.ts, lines 29-39) with `pass = true` has
severity `info`, irrespective of the severity the adapter requested. -/
theorem C5_pass_forces_info (id category name : String) (severity : Severity)
    (details : String) (compliance : List String) (evidence : Option String) :
    (ok id category name true severity details compliance evidence).severity =
      Severity.info := rfl

/-- `ScanReport` (scanner.ts, lines 36-44). -/
structure ScanReport where
  timestamp : String
  duration_ms : Nat
  total : Nat
  passed : Nat
  failed : Nat
  results : List ScanResult
  compliance_summary : ComplianceSummary
deriving DecidableEq, Repr

/-- Report assembly shared by `runScan` (scanner.ts, lines 1106-1118) and
`runSecurityScan` (index.ts, lines 543-556): both compute `total`,
`passed` and `failed` from the result list with these expressions. -/
def mkReport (timestamp : String) (duration_ms : Nat)
    (results : List ScanResult) : ScanReport :=
  { timestamp := timestamp, duration_ms := duration_ms,
    total := results.length,
    passed := (results.filter (fun r => r.pass)).length,
    failed := (results.filter (fun r => !r.pass)).length,
    results := results,
    compliance_summary := buildComplianceSummary results }

lemma length_filter_pass_add (l : List ScanResult) :
    (l.filter (fun r => r.pass)).length +
      (l.filter (fun r => !r.pass)).length = l.length := by
  induction l with
  | nil => rfl
  | cons r rs ih =>
    cases hp : r.pass <;> simp [List.filter_cons, hp] <;> omega

/-- Claim C6: every report assembled by the engine satisfies
`total = passed + failed = length of results`, where `passed` counts the
results with `pass = true` and `failed` those with `pass = false`. -/
theorem C6_report_counts (timestamp : String) (duration_ms : Nat)
    (results : List ScanResult) :
    (mkReport timestamp duration_ms results).total =
      (mkReport timestamp duration_ms results).passed +
        (mkReport timestamp duration_ms results).failed
    ∧ (mkReport timestamp duration_ms results).total =
      (mkReport timestamp duration_ms results).results.length
    ∧ (mkReport timestamp duration_ms results).passed =
      (results.filter (fun r => r.pass)).length
    ∧ (mkReport timestamp duration_ms results).failed =
      (results.filter (fun r => !r.pass)).length := by
  refine ⟨?_, rfl, rfl, rfl⟩
  simp only [mkReport]
  exact (length_filter_pass_add results).symm

/-- Outcomes of the check groups invoked by `runScan` (scanner.ts,
lines 1048-1104).  Each group's network/SSH work is opaque to the engine,
so a run is parametrised by every group's settlement: `Except.ok` for a
fulfilled promise and `Except.error` for a rejected one. -/
structure GroupOutcomes where
  webhookAuth : Except String (List ScanResult)
  disabledEndpoints : Except String (List ScanResult)
  localProcessAuth : Except String ScanResult
  rateLimit : Except String ScanResult
  headerDisclosure : Except String (List ScanResult)
  securityHeaders : Except String (List ScanResult)
  tls : Except String (List ScanResult)
  webApp : Except String (List ScanResult)
  localSecurity : Except String (List ScanResult)
  apiCredentials : Except String (List ScanResult)
  tokenFreshness : Except String (List ScanResult)
  inputValidation : Except String (List ScanResult)
  backups : Except String (List ScanResult)
  vpsInternal : Except String (List ScanResult)
deriving Repr

/-- `Promise.allSettled` collection loop (scanner.ts, lines 1058-1064 and
1087-1093): only fulfilled entries are pushed; a rejected group is
skipped without any replacement result. -/
def settledList (o : Except String (List ScanResult)) : List ScanResult :=
  match o with
  | Except.ok v => v
  | Except.error _ => []

/-- Same collection for a group returning a single result
(`checkLocalProcessAuth`), and for the rate-limit check whose rejection
is swallowed by `try { ... } catch {}` (scanner.ts, lines 1067-1069). -/
def settledOne (o : Except String ScanResult) : List ScanResult :=
  match o with
  | Except.ok v => [v]
  | Except.error _ => []

/-- The synthetic result pushed when `checkVPSInternal` throws
(scanner.ts, lines 1099-1103). -/
def sshConnectFailure (msg : String) : ScanResult :=
  ok "vps_ssh_connect" "VPS_SSH" "SSH connection to VPS" false
    Severity.high ("SSH failed: " ++ msg) ["SOC2:CC7.1"] (some msg)

/-- The result list accumulated by `runScan` (scanner.ts,
lines 1048-1104) in push order.  `hasDisabled` mirrors the
`DISABLED_ENDPOINTS.length > 0` guard at line 1055.  Only the VPS SSH
group's rejection produces a synthetic failing result; every other
rejected group contributes nothing. -/
def runScanResults (hasDisabled : Bool) (o : GroupOutcomes) :
    List ScanResult :=
  settledList o.webhookAuth
  ++ (if hasDisabled then settledList o.disabledEndpoints else [])
  ++ settledOne o.localProcessAuth
  ++ settledOne o.rateLimit
  ++ settledList o.headerDisclosure
  ++ settledList o.securityHeaders
  ++ settledList o.tls
  ++ settledList o.webApp
  ++ settledList o.localSecurity
  ++ settledList o.apiCredentials
  ++ settledList o.tokenFreshness
  ++ settledList o.inputValidation
  ++ settledList o.backups
  ++ (match o.vpsInternal with
      | Except.ok v => v
      | Except.error msg => [sshConnectFailure msg])

/-- Sample outputs of the two single-result checks, used for the run in
which the webhook-auth group's promise rejects. -/
def localAuthResult : ScanResult :=
  ok "auth_local_process" "LOCAL"
    "Local /process rejects unauthenticated requests" true Severity.critical
    "Correctly rejected (401)" ["SOC2:CC6.1"] none

def rateLimitResult : ScanResult :=
  ok "rate_limit_active" "RATE_LIMIT" "Rate limiting is active" true
    Severity.high "Throttled after 20 requests" ["SOC2:CC6.6"] none

/-- A run in which exactly one group (`checkWebhookAuth`) throws and all
sibling groups fulfil. -/
def cexOutcomes : GroupOutcomes :=
  { webhookAuth := Except.error "fetch failed",
    disabledEndpoints := Except.ok [],
    localProcessAuth := Except.ok localAuthResult,
    rateLimit := Except.ok rateLimitResult,
    headerDisclosure := Except.ok [],
    securityHeaders := Except.ok [],
    tls := Except.ok [],
    webApp := Except.ok [],
    localSecurity := Except.ok [],
    apiCredentials := Except.ok [],
    tokenFreshness := Except.ok [],
    inputValidation := Except.ok [],
    backups := Except.ok [],
    vpsInternal := Except.ok [] }

/-- Counterexample to claim C3: in a run where exactly one group (the
webhook-auth group) throws, the report consists of the sibling groups'
results only — it contains no failing result at all, hence no synthetic
failing `ScanResult` tagged to the thrown group. -/
theorem C3_counterexample :
    runScanResults false cexOutcomes = [localAuthResult, rateLimitResult]
    ∧ (∀ s ∈ runScanResults false cexOutcomes, s.category ≠ "EXTERNAL_AUTH")
    ∧ (∀ s ∈ runScanResults false cexOutcomes, s.pass = true) := by
  decide

/-- Outcomes of the ten tool groups of `runDailyTools` (tools.ts,
lines 962-973): nmap, nuclei, trufflehog, trivy, semgrep, gitleaks,
grype, checkdmarc, httpx, lynis. -/
structure DailyToolOutcomes where
  nmap : Except String (List ScanResult)
  nuclei : Except String (List ScanResult)
  trufflehog : Except String (List ScanResult)
  trivy : Except String (List ScanResult)
  semgrep : Except String (List ScanResult)
  gitleaks : Except String (List ScanResult)
  grype : Except String (List ScanResult)
  checkdmarc : Except String (List ScanResult)
  httpx : Except String (List ScanResult)
  lynis : Except String (List ScanResult)
deriving Repr

/-- `runDailyTools` (tools.ts, lines 962-973): `Promise.allSettled` over
the ten tool groups, keeping only fulfilled entries — a rejected tool
group contributes nothing, with no synthetic replacement. -/
def runDailyToolsResults (o : DailyToolOutcomes) : List ScanResult :=
  settledList o.nmap
  ++ settledList o.nuclei
  ++ settledList o.trufflehog
  ++ settledList o.trivy
  ++ settledList o.semgrep
  ++ settledList o.gitleaks
  ++ settledList o.grype
  ++ settledList o.checkdmarc
  ++ settledList o.httpx
  ++ settledList o.lynis

/-- Outcomes of the two tool groups of `runWeeklyTools` (tools.ts,
lines 975-982): testssl and sslyze. -/
structure WeeklyToolOutcomes where
  testssl : Except String (List ScanResult)
  sslyze : Except String (List ScanResult)
deriving Repr

/-- `runWeeklyTools` (tools.ts, lines 975-982): same settle-and-collect
loop over the two deep TLS tool groups. -/
def runWeeklyToolsResults (o : WeeklyToolOutcomes) : List ScanResult :=
  settledList o.testssl ++ settledList o.sslyze

/-- Claim C3 as the code has it: sibling groups' results always survive a
thrown group, but only the VPS SSH group's rejection yields a synthetic
failing result (`vps_ssh_connect`, category `VPS_SSH`), appended exactly
once; every other group that throws — the auth, rate-limit and hourly
groups of `runScan` as well as the ten daily and two weekly tool groups
of `runDailyTools`/`runWeeklyTools` — contributes nothing to the
report. -/
theorem C3_group_isolation (hasDisabled : Bool) (o : GroupOutcomes)
    (msg : String) (hv : o.vpsInternal = Except.error msg) :
    (runScanResults hasDisabled o =
      runScanResults hasDisabled { o with vpsInternal := Except.ok [] }
        ++ [sshConnectFailure msg])
    ∧ (sshConnectFailure msg).pass = false
    ∧ (sshConnectFailure msg).category = "VPS_SSH"
    ∧ (∀ e, o.webhookAuth = Except.error e →
        runScanResults hasDisabled o =
          runScanResults hasDisabled { o with webhookAuth := Except.ok [] })
    ∧ (∀ e, o.headerDisclosure = Except.error e →
        runScanResults hasDisabled o =
          runScanResults hasDisabled { o with headerDisclosure := Except.ok [] })
    ∧ (∀ e, o.securityHeaders = Except.error e →
        runScanResults hasDisabled o =
          runScanResults hasDisabled { o with securityHeaders := Except.ok [] })
    ∧ (∀ e, o.tls = Except.error e →
        runScanResults hasDisabled o =
          runScanResults hasDisabled { o with tls := Except.ok [] })
    ∧ (∀ e, o.webApp = Except.error e →
        runScanResults hasDisabled o =
          runScanResults hasDisabled { o with webApp := Except.ok [] })
    ∧ (∀ e, o.localSecurity = Except.error e →
        runScanResults hasDisabled o =
          runScanResults hasDisabled { o with localSecurity := Except.ok [] })
    ∧ (∀ e, o.apiCredentials = Except.error e →
        runScanResults hasDisabled o =
          runScanResults hasDisabled { o with apiCredentials := Except.ok [] })
    ∧ (∀ e, o.tokenFreshness = Except.error e →
        runScanResults hasDisabled o =
          runScanResults hasDisabled { o with tokenFreshness := Except.ok [] })
    ∧ (∀ e, o.inputValidation = Except.error e →
        runScanResults hasDisabled o =
          runScanResults hasDisabled { o with inputValidation := Except.ok [] })
    ∧ (∀ e, o.backups = Except.error e →
        runScanResults hasDisabled o =
          runScanResults hasDisabled { o with backups := Except.ok [] })
    ∧ (∀ e, o.disabledEndpoints = Except.error e →
        runScanResults hasDisabled o =
          runScanResults hasDisabled { o with disabledEndpoints := Except.ok [] })
    ∧ (∀ e, o.localProcessAuth = Except.error e →
        settledOne o.localProcessAuth = [])
    ∧ (∀ e, o.rateLimit = Except.error e →
        settledOne o.rateLimit = [])
    ∧ (∀ (d : DailyToolOutcomes) e, d.nmap = Except.error e →
        runDailyToolsResults d =
          runDailyToolsResults { d with nmap := Except.ok [] })
    ∧ (∀ (d : DailyToolOutcomes) e, d.nuclei = Except.error e →
        runDailyToolsResults d =
          runDailyToolsResults { d with nuclei := Except.ok [] })
    ∧ (∀ (d : DailyToolOutcomes) e, d.trufflehog = Except.error e →
        runDailyToolsResults d =
          runDailyToolsResults { d with trufflehog := Except.ok [] })
    ∧ (∀ (d : DailyToolOutcomes) e, d.trivy = Except.error e →
        runDailyToolsResults d =
          runDailyToolsResults { d with trivy := Except.ok [] })
    ∧ (∀ (d : DailyToolOutcomes) e, d.semgrep = Except.error e →
        runDailyToolsResults d =
          runDailyToolsResults { d with semgrep := Except.ok [] })
    ∧ (∀ (d : DailyToolOutcomes) e, d.gitleaks = Except.error e →
        runDailyToolsResults d =
          runDailyToolsResults { d with gitleaks := Except.ok [] })
    ∧ (∀ (d : DailyToolOutcomes) e, d.grype = Except.error e →
        runDailyToolsResults d =
          runDailyToolsResults { d with grype := Except.ok [] })
    ∧ (∀ (d : DailyToolOutcomes) e, d.checkdmarc = Except.error e →
        runDailyToolsResults d =
          runDailyToolsResults { d with checkdmarc := Except.ok [] })
    ∧ (∀ (d : DailyToolOutcomes) e, d.httpx = Except.error e →
        runDailyToolsResults d =
          runDailyToolsResults { d with httpx := Except.ok [] })
    ∧ (∀ (d : DailyToolOutcomes) e, d.lynis = Except.error e →
        runDailyToolsResults d =
          runDailyToolsResults { d with lynis := Except.ok [] })
    ∧ (∀ (w : WeeklyToolOutcomes) e, w.testssl = Except.error e →
        runWeeklyToolsResults w =
          runWeeklyToolsResults { w with testssl := Except.ok [] })
    ∧ (∀ (w : WeeklyToolOutcomes) e, w.sslyze = Except.error e →
        runWeeklyToolsResults w =
          runWeeklyToolsResults { w with sslyze := Except.ok [] }) := by
  refine ⟨?_, rfl, rfl, ?_, ?_, ?_, ?_, ?_, ?_, ?_, ?_, ?_, ?_, ?_, ?_, ?_, ?_, ?_, ?_, ?_, ?_, ?_, ?_, ?_, ?_, ?_, ?_, ?_⟩
  · simp [runScanResults, hv, settledList, settledOne]
  · intro e he
    simp [runScanResults, he, settledList, settledOne]
  · intro e he
    simp [runScanResults, he, settledList, settledOne]
  · intro e he
    simp [runScanResults, he, settledList, settledOne]
  · intro e he
    simp [runScanResults, he, settledList, settledOne]
  · intro e he
    simp [runScanResults, he, settledList, settledOne]
  · intro e he
    simp [runScanResults, he, settledList, settledOne]
  · intro e he
    simp [runScanResults, he, settledList, settledOne]
  · intro e he
    simp [runScanResults, he, settledList, settledOne]
  · intro e he
    simp [runScanResults, he, settledList, settledOne]
  · intro e he
    simp [runScanResults, he, settledList, settledOne]
  · intro e he
    simp [runScanResults, he, settledList, settledOne]
  · intro e he
    simp [runScanResults, he, settledList, settledOne]
  · intro e he
    simp [runScanResults, he, settledList, settledOne]
  · intro d e he
    simp [runDailyToolsResults, he, settledList]
  · intro d e he
    simp [runDailyToolsResults, he, settledList]
  · intro d e he
    simp [runDailyToolsResults, he, settledList]
  · intro d e he
    simp [runDailyToolsResults, he, settledList]
  · intro d e he
    simp [runDailyToolsResults, he, settledList]
  · intro d e he
    simp [runDailyToolsResults, he, settledList]
  · intro d e he
    simp [runDailyToolsResults, he, settledList]
  · intro d e he
    simp [runDailyToolsResults, he, settledList]
  · intro d e he
    simp [runDailyToolsResults, he, settledList]
  · intro d e he
    simp [runDailyToolsResults, he, settledList]
  · intro w e he
    simp [runWeeklyToolsResults, he, settledList]
  · intro w e he
    simp [runWeeklyToolsResults, he, settledList]

/-- A run whose VPS SSH group throws while every sibling fulfils. -/
def wVpsOutcomes : GroupOutcomes :=
  { webhookAuth := Except.ok [],
    disabledEndpoints := Except.ok [],
    localProcessAuth := Except.ok localAuthResult,
    rateLimit := Except.ok rateLimitResult,
    headerDisclosure := Except.ok [],
    securityHeaders := Except.ok [],
    tls := Except.ok [],
    webApp := Except.ok [],
    localSecurity := Except.ok [],
    apiCredentials := Except.ok [],
    tokenFreshness := Except.ok [],
    inputValidation := Except.ok [],
    backups := Except.ok [],
    vpsInternal := Except.error "connect timeout" }

theorem C3_group_isolation_witness :
    wVpsOutcomes.vpsInternal = Except.error "connect timeout"
    ∧ runScanResults false wVpsOutcomes =
        runScanResults false { wVpsOutcomes with vpsInternal := Except.ok [] }
          ++ [sshConnectFailure "connect timeout"] :=
  ⟨rfl, (C3_group_isolation false wVpsOutcomes "connect timeout" rfl).1⟩

/-- Identifiers for the check groups scheduled by `runScan`. -/
inductive GroupId
  | webhookAuth
  | disabledEndpoints
  | localProcessAuth
  | rateLimit
  | headerDisclosure
  | securityHeaders
  | tls
  | webApp
  | localSecurity
  | apiCredentials
  | tokenFreshness
  | inputValidation
  | backups
  | vpsInternal
deriving DecidableEq, Repr

/-- One sequential step of `runScan`: an `await` of a batch of
concurrently running groups (`Promise.allSettled`, or one awaited call),
or an awaited `setTimeout` pause.  Successive stages never overlap: an
`await` resumes only after every promise of its batch has settled and its
results have been pushed. -/
inductive Stage
  | par (groups : List GroupId)
  | sleep (ms : Nat)
deriving DecidableEq, Repr

def stageGroups : Stage → List GroupId
  | Stage.par gs => gs
  | Stage.sleep _ => []

/-- The authentication/authorization probe groups of the first batch. -/
def isAuthGroup : GroupId → Bool
  | GroupId.webhookAuth => true
  | GroupId.disabledEndpoints => true
  | GroupId.localProcessAuth => true
  | _ => false

/-- The `await` sequence of `runScan` (scanner.ts, lines 1048-1104) in
program order: the auth batch, the rate-limit check awaited alone, the
fixed 2000 ms cooldown (`setTimeout(r, 2_000)`, line 1072), the hourly
batch, then the sequential VPS SSH group.  `hasDisabled` mirrors the
`DISABLED_ENDPOINTS.length > 0` guard at line 1055. -/
def runScanSchedule (hasDisabled : Bool) : List Stage :=
  [ Stage.par ([GroupId.webhookAuth]
      ++ (if hasDisabled then [GroupId.disabledEndpoints] else [])
      ++ [GroupId.localProcessAuth]),
    Stage.par [GroupId.rateLimit],
    Stage.sleep 2000,
    Stage.par [GroupId.headerDisclosure, GroupId.securityHeaders,
      GroupId.tls, GroupId.webApp, GroupId.localSecurity,
      GroupId.apiCredentials, GroupId.tokenFreshness,
      GroupId.inputValidation, GroupId.backups],
    Stage.par [GroupId.vpsInternal] ]

/-- Claim C7: in every run (with or without configured disabled
endpoints) there is a stage running exactly the rate-limit group alone;
every auth group runs — and has its results recorded — in a strictly
earlier stage; the stage immediately after it is the fixed 2000 ms
cooldown; every other group runs in a stage strictly after the cooldown;
and the rate-limit group never shares a stage with any other group. -/
theorem C7_rate_limit_ordering (hasDisabled : Bool) :
    ∃ i,
      (runScanSchedule hasDisabled).get? i =
        some (Stage.par [GroupId.rateLimit])
      ∧ (runScanSchedule hasDisabled).get? (i + 1) =
        some (Stage.sleep 2000)
      ∧ (∀ p ∈ (runScanSchedule hasDisabled).enum, ∀ g ∈ stageGroups p.2,
          isAuthGroup g = true → p.1 < i)
      ∧ (∀ p ∈ (runScanSchedule hasDisabled).enum, ∀ g ∈ stageGroups p.2,
          isAuthGroup g = false → g ≠ GroupId.rateLimit → i + 1 < p.1)
      ∧ (∀ p ∈ (runScanSchedule hasDisabled).enum,
          GroupId.rateLimit ∈ stageGroups p.2 →
            p.2 = Stage.par [GroupId.rateLimit]) := by
  refine ⟨1, ?_⟩
  cases hasDisabled <;> decide

/-- The four scan tiers that reach `runSecurityScan` (index.ts, line 38;
the `compliance` and `install` modes are handled in `main` before any
scan starts). -/
inductive ScanMode
  | scan
  | hourly
  | daily
  | deep
deriving DecidableEq, Repr

/-- The four adapter bundles `runSecurityScan` can invoke. -/
inductive Adapter
  | coreScan
  | recon
  | dailyTools
  | weeklyTools
deriving DecidableEq, Repr

/-- The adapter bundles invoked per mode by `runSecurityScan` (index.ts,
lines 518-541): `runScan` always runs; `runRecon` for every mode other
than `scan`; `runDailyTools` for `daily` and `deep`; `runWeeklyTools`
for `deep` only. -/
def adaptersFor (mode : ScanMode) : List Adapter :=
  [Adapter.coreScan]
  ++ (if mode ≠ ScanMode.scan then [Adapter.recon] else [])
  ++ (if mode = ScanMode.daily ∨ mode = ScanMode.deep then
        [Adapter.dailyTools] else [])
  ++ (if mode = ScanMode.deep then [Adapter.weeklyTools] else [])

/-- The tier order `scan < hourly < daily < deep`. -/
def tierRank : ScanMode → Nat
  | ScanMode.scan => 0
  | ScanMode.hourly => 1
  | ScanMode.daily => 2
  | ScanMode.deep => 3

/-- Claim C8: tiers are nested — for modes ordered
`scan ≤ hourly ≤ daily ≤ deep`, every adapter bundle invoked under the
lower mode is invoked under the higher mode, and hence (for any stable
assignment of check ids to bundles) every check id produced under the
lower mode also appears under the higher mode. -/
theorem C8_tier_nesting (m1 m2 : ScanMode) (h : tierRank m1 ≤ tierRank m2) :
    (∀ a ∈ adaptersFor m1, a ∈ adaptersFor m2)
    ∧ ∀ (checkIds : Adapter → List String) (i : String),
        i ∈ (adaptersFor m1).flatMap checkIds →
          i ∈ (adaptersFor m2).flatMap checkIds := by
  have hsub : ∀ a ∈ adaptersFor m1, a ∈ adaptersFor m2 := by
    cases m1 <;> cases m2 <;> first | decide | exact absurd h (by decide)
  refine ⟨hsub, ?_⟩
  intro checkIds i hi
  rw [List.mem_flatMap] at hi ⊢
  obtain ⟨a, ha, hia⟩ := hi
  exact ⟨a, hsub a ha, hia⟩

theorem C8_tier_nesting_witness :
    tierRank ScanMode.scan ≤ tierRank ScanMode.deep
    ∧ ∀ a ∈ adaptersFor ScanMode.scan, a ∈ adaptersFor ScanMode.deep :=
  ⟨by decide, (C8_tier_nesting ScanMode.scan ScanMode.deep (by decide)).1⟩

/-- `severity.toUpperCase()` on the five severity strings. -/
def sevUpper : Severity → String
  | Severity.critical => "CRITICAL"
  | Severity.high => "HIGH"
  | Severity.medium => "MEDIUM"
  | Severity.low => "LOW"
  | Severity.info => "INFO"

/-- The critical failing results of a report (index.ts, line 183). -/
def criticalFailures (report : ScanReport) : List ScanResult :=
  report.results.filter
    (fun r => !r.pass && decide (r.severity = Severity.critical))

/-- The high-severity failing results of a report (index.ts, line 184). -/
def highFailures (report : ScanReport) : List ScanResult :=
  report.results.filter
    (fun r => !r.pass && decide (r.severity = Severity.high))

/-- `formatTelegramAlert` (index.ts, lines 182-222): returns `null` —
suppressing the alert — exactly when the report has no critical and no
high failing result and the diff has no new failures; otherwise it
composes the alert message. -/
def formatTelegramAlert (report : ScanReport) (diff : ScanDiff) :
    Option String :=
  if (criticalFailures report).length = 0 ∧ (highFailures report).length = 0 ∧
      diff.new_failures.length = 0 then
    none
  else
    some (String.intercalate "\n"
      (["🔒 <b>Security Sentinel Alert</b>", "",
        "<b>" ++ toString report.total ++ "</b> checks | <b>" ++
          toString report.failed ++ "</b> failed"]
      ++ (if diff.new_failures.length > 0 then
            ["", "<b>New failures:</b>"]
            ++ (diff.new_failures.take 5).map
              (fun f => "• [" ++ sevUpper f.severity ++ "] " ++ f.name)
          else [])
      ++ (if (criticalFailures report).length > 0 then
            ["", "<b>Critical:</b>"]
            ++ ((criticalFailures report).take 3).map
              (fun f => "• " ++ f.name ++ ": " ++ f.details)
          else [])
      ++ (if (highFailures report).length > 0 then
            ["", "<b>High:</b> " ++ toString (highFailures report).length ++
              " finding(s)"]
          else [])
      ++ (if diff.resolved.length > 0 then
            ["", "✅ " ++ toString diff.resolved.length ++
              " issue(s) resolved since last scan"]
          else [])))

/-- The notification step of `runSecurityScan` (index.ts, lines 575-581):
in `scan` mode no alert is composed or sent at all; in every other mode
`sendTelegramAlert` is called exactly once when `formatTelegramAlert`
returns a message and not at all when it returns `null`. -/
def notificationsSent (mode : ScanMode) (report : ScanReport)
    (diff : ScanDiff) : Nat :=
  if mode ≠ ScanMode.scan then
    match formatTelegramAlert report diff with
    | some _ => 1
    | none => 0
  else 0

lemma formatTelegramAlert_eq_none_iff (report : ScanReport)
    (diff : ScanDiff) :
    formatTelegramAlert report diff = none ↔
      (criticalFailures report = [] ∧ highFailures report = [] ∧
        diff.new_failures = []) := by
  unfold formatTelegramAlert
  split
  · rename_i hcond
    simp only [List.length_eq_zero] at hcond
    exact iff_of_true rfl hcond
  · rename_i hcond
    simp only [List.length_eq_zero] at hcond
    constructor
    · intro hcontra
      exact absurd hcontra (by simp)
    · intro hemp
      exact (hcond hemp).elim

/-- A report holding exactly one critical failing result, together with
an empty diff. -/
def critResult : ScanResult :=
  ok "vps_firewall" "VPS_SSH" "UFW firewall enabled" false Severity.critical
    "UFW is not active" ["SOC2:CC6.6", "PCI:1.3"] none

def critReport : ScanReport :=
  mkReport "2026-01-01T00:00:00.000Z" 1000 [critResult]

def emptyDiff : ScanDiff :=
  { new_failures := [], resolved := [], persistent_failures := [] }

/-- Counterexample to claim C4: a report containing one critical failing
result produces no notification when the run's mode is `scan`, because
`runSecurityScan` only reaches the alert step when `mode !== "scan"`. -/
theorem C4_counterexample :
    (criticalFailures critReport).length = 1
    ∧ notificationsSent ScanMode.scan critReport emptyDiff = 0 := by
  decide

/-- Claim C4 as the code has it: in modes other than `scan` the
notification is suppressed exactly when the report has no critical or
high failing result and the diff's `new_failures` is empty, and exactly
one notification is sent otherwise; in `scan` mode no notification is
ever sent, whatever the report and diff. -/
theorem C4_alert_policy (mode : ScanMode) (report : ScanReport)
    (diff : ScanDiff) (hm : mode ≠ ScanMode.scan) :
    (notificationsSent mode report diff = 0 ↔
      criticalFailures report = [] ∧ highFailures report = [] ∧
        diff.new_failures = [])
    ∧ (notificationsSent mode report diff = 1 ↔
      ¬ (criticalFailures report = [] ∧ highFailures report = [] ∧
        diff.new_failures = []))
    ∧ notificationsSent ScanMode.scan report diff = 0
    ∧ notificationsSent mode report diff ≤ 1 := by
  have hn := formatTelegramAlert_eq_none_iff report diff
  have hscan : notificationsSent ScanMode.scan report diff = 0 := by
    simp [notificationsSent]
  cases hf : formatTelegramAlert report diff with
  | none =>
    have hsent : notificationsSent mode report diff = 0 := by
      simp [notificationsSent, hm, hf]
    exact ⟨iff_of_true hsent (hn.mp hf),
      iff_of_false (by omega) (not_not_intro (hn.mp hf)), hscan, by omega⟩
  | some msg =>
    have hr : ¬ (criticalFailures report = [] ∧ highFailures report = [] ∧
        diff.new_failures = []) := by
      intro hemp
      have hnone := hn.mpr hemp
      rw [hf] at hnone
      exact absurd hnone (by simp)
    have hsent : notificationsSent mode report diff = 1 := by
      simp [notificationsSent, hm, hf]
    exact ⟨iff_of_false (by omega) hr, iff_of_true hsent hr, hscan, by omega⟩

theorem C4_alert_policy_witness :
    ScanMode.hourly ≠ ScanMode.scan
    ∧ (notificationsSent ScanMode.hourly critReport emptyDiff = 0 ↔
        criticalFailures critReport = [] ∧ highFailures critReport = [] ∧
          emptyDiff.new_failures = []) :=
  ⟨by decide,
   (C4_alert_policy ScanMode.hourly critReport emptyDiff (by decide)).1⟩

/-- Timestamp sanitization of `saveReport` (index.ts, line 50):
`timestamp.replace(/[:.]/g, "-")`. -/
def sanitizeTimestamp (ts : String) : String :=
  ts.map (fun c => if c = ':' ∨ c = '.' then '-' else c)

/-- `saveReport` (index.ts, lines 48-53): on a successful write it
resolves to the report's filename; a failing `writeFile` rejects, and
nothing in `runSecurityScan` catches that rejection. -/
def saveReport (timestamp : String) (write : Except String Unit) :
    Except String String :=
  match write with
  | Except.error e => Except.error e
  | Except.ok _ => Except.ok (sanitizeTimestamp timestamp ++ ".json")

/-- The externally visible steps of the tail of `runSecurityScan`
(index.ts, lines 569-583), in program order. -/
inductive RunStep
  | saved (filename : String)
  | formatted
  | alerted
  | returned
deriving DecidableEq, Repr

/-- The tail of `runSecurityScan` (index.ts, lines 569-583):
`await saveReport(...)` comes first; only if it resolves do the
formatting of the full and compact outputs, the mode-gated Telegram
alert, and the `return` execute.  A rejected write propagates out of
`runSecurityScan` (to `main`'s fatal-error handler). -/
def runSecurityScanTail (mode : ScanMode) (report : ScanReport)
    (diff : ScanDiff) (write : Except String Unit) :
    Except String (List RunStep) :=
  match saveReport report.timestamp write with
  | Except.error e => Except.error e
  | Except.ok filename =>
    Except.ok ([RunStep.saved filename, RunStep.formatted]
      ++ (if mode ≠ ScanMode.scan then
            match formatTelegramAlert report diff with
            | some _ => [RunStep.alerted]
            | none => []
          else [])
      ++ [RunStep.returned])

def report9 : ScanReport :=
  mkReport "2026-02-03T04:05:06.789Z" 42 [critResult]

/-- Counterexample to claim C9: when the report-file write fails, the
rejection propagates — the run produces no output at all, so the
in-memory report is neither returned nor formatted nor alerted on. -/
theorem C9_counterexample :
    runSecurityScanTail ScanMode.hourly report9 emptyDiff
        (Except.error "EACCES: permission denied")
      = Except.error "EACCES: permission denied"
    ∧ (runSecurityScanTail ScanMode.hourly report9 emptyDiff
        (Except.error "EACCES: permission denied")).isOk = false :=
  ⟨rfl, rfl⟩

/-- Claim C9 as the code has it: a failed report write makes the whole
run fail with that error — no formatting, alerting or return happens —
while a successful write is followed by formatting, the mode-gated
alert, and returning the output. -/
theorem C9_store_failure (mode : ScanMode) (report : ScanReport)
    (diff : ScanDiff) :
    (∀ e, runSecurityScanTail mode report diff (Except.error e) =
      Except.error e)
    ∧ (∃ steps,
        runSecurityScanTail mode report diff (Except.ok ()) =
          Except.ok steps
        ∧ RunStep.returned ∈ steps
        ∧ RunStep.formatted ∈ steps
        ∧ RunStep.saved (sanitizeTimestamp report.timestamp ++ ".json")
            ∈ steps
        ∧ (RunStep.alerted ∈ steps ↔
            mode ≠ ScanMode.scan ∧
              (formatTelegramAlert report diff).isSome = true)) := by
  constructor
  · intro e
    rfl
  · refine ⟨_, rfl, ?_, ?_, ?_, ?_⟩
    · simp
    · simp
    · simp [saveReport]
    · by_cases hm : mode = ScanMode.scan
      · simp [hm]
      · cases hf : formatTelegramAlert report diff <;> simp [hm, hf]

end SecuritySentinel
